import Mathlib

/-!
Shallow embedding of the Woolworths crawler core
(src/lib/scraper_woolworths.py) together with proofs about the claims of
its natural-language specification.

Modelling conventions: Python strings are Lean `String`s (lists of
characters), Python floats are exact rationals `ℚ` with `round(x, 2)`
modelled by round-half-even on the exact rational (the decimal literals
arising in promo prices are handled identically by both), fallible
parses are `Option`, a raised exception is `Except.error`, and the
browsing session, the detail pages and the file system are explicit
environment records supplied as parameters.  Recursions that walk a
string carry a fuel argument initialised to the string length (one
character is consumed per step, so the fuel-exhausted branch is
unreachable); this keeps every definition structurally recursive and
hence evaluable by `decide`.
-/

namespace Scraper

/-- Python whitespace characters: the set recognised by `str.strip`,
`str.split()` and the regex class `\s` on the ASCII inputs handled here. -/
def isWs (c : Char) : Bool :=
  c = ' ' || c = '\t' || c = '\n' || c = '\r' || c.toNat = 11 || c.toNat = 12

/-- Python `str.lstrip()` on the character list. -/
def lstripL (l : List Char) : List Char := l.dropWhile isWs

/-- Python `str.strip()` on the character list. -/
def stripL (l : List Char) : List Char :=
  ((l.dropWhile isWs).reverse.dropWhile isWs).reverse

/-- Python `str.strip()`. -/
def strip (s : String) : String := ⟨stripL s.data⟩

/-- Python `str.lstrip()`. -/
def lstrip (s : String) : String := ⟨lstripL s.data⟩

/-- Python `str.strip(ch)` for a single stripping character `ch`
(used by `.strip("/")` in `get_categories`). -/
def stripChar (s : String) (ch : Char) : String :=
  ⟨((s.data.dropWhile (· = ch)).reverse.dropWhile (· = ch)).reverse⟩

/-- Python `str.lower()` (ASCII case mapping, which is all the source needs). -/
def lowerL (l : List Char) : List Char := l.map Char.toLower

/-- Python `str.lower()`. -/
def lower (s : String) : String := ⟨lowerL s.data⟩

/-- First index at which `needle` occurs in `hay`, or `none`
(the core of Python `sub in s` and `s.find(sub)`). -/
def findSubL (needle : List Char) : List Char → Option Nat
  | [] => if needle.isEmpty then some 0 else none
  | c :: t =>
    if needle.isPrefixOf (c :: t) then some 0
    else (findSubL needle t).map (· + 1)

/-- Python `sub in s`. -/
def containsSub (s sub : String) : Bool := (findSubL sub.data s.data).isSome

/-- Python `s.find(sub)`: first index or `-1`. -/
def pyFind (s sub : String) : Int :=
  match findSubL sub.data s.data with
  | some n => (n : Int)
  | none => -1

/-- Python `s.rfind(sub)`: last index or `-1`. -/
def pyRFindL (needle hay : List Char) : Int :=
  match ((List.range (hay.length + 1)).filter
      (fun p => needle.isPrefixOf (hay.drop p))).getLast? with
  | some p => (p : Int)
  | none => -1

/-- Normalise a Python slice index against a length (negative indices count
from the end, and indices are clamped into range). -/
def normIdx (len : Nat) (i : Int) : Nat :=
  if i < 0 then (if (len : Int) + i < 0 then 0 else ((len : Int) + i).toNat)
  else min i.toNat len

/-- Python `s[a:]` with an `Int` index (as produced by `find`). -/
def pySliceFrom (s : String) (a : Int) : String :=
  ⟨s.data.drop (normIdx s.data.length a)⟩

/-- Python `s[a:b]` with `Int` indices. -/
def pySlice (s : String) (a b : Int) : String :=
  ⟨(s.data.take (normIdx s.data.length b)).drop (normIdx s.data.length a)⟩

/-- Python `s.split(sep)` for a non-empty separator: leftmost,
non-overlapping.  `fuel` is initialised to the string length, which
dominates the number of steps, so the fuel-exhausted branch never fires. -/
def splitSubFuel (sep : List Char) : Nat → List Char → List Char → List (List Char)
  | _, [], acc => [acc.reverse]
  | 0, l, acc => [acc.reverse ++ l]
  | fuel + 1, c :: t, acc =>
    if sep ≠ [] ∧ sep.isPrefixOf (c :: t) then
      acc.reverse :: splitSubFuel sep fuel ((c :: t).drop sep.length) []
    else
      splitSubFuel sep fuel t (c :: acc)

/-- Python `s.split(sep)` (non-empty `sep`; every separator in the source is). -/
def splitStr (s sep : String) : List String :=
  if sep.data.isEmpty then [s]
  else (splitSubFuel sep.data s.data.length s.data []).map (fun l => (⟨l⟩ : String))

/-- The second component of Python `s.split(sep, 1)`: everything after the
first occurrence of `sep` (callers in the source guard on `sep in s`). -/
def splitOnceRest (s sep : String) : String :=
  match findSubL sep.data s.data with
  | some p => ⟨s.data.drop (p + sep.data.length)⟩
  | none => s

/-- Python `s.replace(old, new)`: replace every non-overlapping occurrence,
left to right.  Fuelled like `splitSubFuel`. -/
def replaceFuel (old new : List Char) : Nat → List Char → List Char
  | _, [] => []
  | 0, l => l
  | fuel + 1, c :: t =>
    if old ≠ [] ∧ old.isPrefixOf (c :: t) then
      new ++ replaceFuel old new fuel ((c :: t).drop old.length)
    else
      c :: replaceFuel old new fuel t

/-- Python `s.replace(old, new)`. -/
def replaceStr (s old new : String) : String :=
  ⟨replaceFuel old.data new.data s.data.length s.data⟩

/-- Python `s.split()` (no argument): split on whitespace runs, dropping
empty tokens. -/
def wsSplitL (l : List Char) : List (List Char) :=
  (l.foldr (fun c acc =>
    if isWs c then [] :: acc
    else match acc with
      | g :: rest => (c :: g) :: rest
      | [] => [[c]]) []).filter (· ≠ [])

/-- Split a character list at every occurrence of one character. -/
def splitCharL (sep : Char) : List Char → List (List Char)
  | [] => [[]]
  | c :: t =>
    let r := splitCharL sep t
    if c = sep then [] :: r
    else match r with
      | g :: rest => (c :: g) :: rest
      | [] => [[c]]

/-- Python `s.splitlines()` for text whose only line break is `\n`
(the source removes every `\r` before splitting). -/
def splitlines (s : String) : List String :=
  match s.data with
  | [] => []
  | l =>
    let parts := (splitCharL '\n' l).map (fun g => (⟨g⟩ : String))
    if l.getLast? = some '\n' then parts.dropLast else parts

/-- Python `re.sub(r"[ \t]+", " ", s)`: collapse runs of spaces/tabs into a
single space.  The flag records whether we are inside such a run. -/
def collapseSpacesAux : List Char → Bool → List Char
  | [], _ => []
  | c :: t, inRun =>
    if c = ' ' || c = '\t' then
      (if inRun then collapseSpacesAux t true else ' ' :: collapseSpacesAux t true)
    else c :: collapseSpacesAux t false

/-- Numeric value of a list of decimal digit characters. -/
def digitsVal (l : List Char) : Nat :=
  l.foldl (fun n c => n * 10 + (c.toNat - 48)) 0

/-- Python `int(''.join(ch for ch in s if ch.isdigit()) or "0")` as used by
the member-price quantity parse. -/
def pyIntDigits (s : String) : Nat :=
  digitsVal (s.data.filter Char.isDigit)

/-- Python `float(s)` restricted to plain decimal literals with an optional
sign (`"4"`, `"2.50"`, `".5"`, `"-3."`): exactly the shapes a promo price
token can have.  Exotic accepted forms (exponents, `inf`, `nan`) do not
arise from promo text and are not modelled; on every other string `float`
raises `ValueError`, modelled by `none`. -/
def pyFloat (s : String) : Option ℚ :=
  let l := stripL s.data
  let sgn : Bool × List Char :=
    match l with
    | '+' :: t => (false, t)
    | '-' :: t => (true, t)
    | t => (false, t)
  let intPart := sgn.2.takeWhile Char.isDigit
  let rest := sgn.2.drop intPart.length
  let fracRest : List Char × List Char :=
    match rest with
    | '.' :: t => (t.takeWhile Char.isDigit, t.drop (t.takeWhile Char.isDigit).length)
    | t => ([], t)
  if fracRest.2 ≠ [] then none
  else if intPart = [] ∧ fracRest.1 = [] then none
  else
    let m : Nat := digitsVal intPart * 10 ^ fracRest.1.length + digitsVal fracRest.1
    some (mkRat (if sgn.1 then -(m : Int) else (m : Int)) (10 ^ fracRest.1.length))

/-- Exact division of a rational by a natural number (the value of Python
`total / qty` on the float model). -/
def ratDivNat (q : ℚ) (n : Nat) : ℚ := mkRat q.num (q.den * n)

/-- Round-half-even of `100 * q` to an integer number of cents: the exact
rational model of Python `round(q, 2)`.  Implemented on the numerator and
denominator directly: `f = ⌊100q⌋` via floor division, and the remainder
`r = 100q - f` compares to `1/2` by cross-multiplication. -/
def roundHalfEven2 (q : ℚ) : ℤ :=
  let num : ℤ := q.num * 100
  let den : ℤ := Int.ofNat q.den
  let f : ℤ := num.fdiv den
  let r : ℤ := num - f * den
  if 2 * r < den then f
  else if den < 2 * r then f + 1
  else if f % 2 = 0 then f else f + 1

/-- Decimal rendering of a non-negative number of cents the way Python
`str`/f-string renders the float `round(x, 2)`: shortest form, always with
at least one digit after the point (`250 ↦ "2.5"`, `40 ↦ "0.4"`,
`300 ↦ "3.0"`, `233 ↦ "2.33"`, `105 ↦ "1.05"`). -/
def fmtCentsNat (n : Nat) : String :=
  let ip := n / 100
  let fr := n % 100
  if fr % 10 = 0 then toString ip ++ "." ++ toString (fr / 10)
  else if fr < 10 then toString ip ++ ".0" ++ toString fr
  else toString ip ++ "." ++ toString fr

/-- Python `f"{round(q, 2)}"` on the rational model. -/
def fmtRound2 (q : ℚ) : String :=
  let c := roundHalfEven2 q
  if c < 0 then "-" ++ fmtCentsNat c.natAbs else fmtCentsNat c.toNat

/-- Python `str.istitle()`: walks the string tracking whether the previous
character was cased. -/
def istitleAux : List Char → Bool → Bool → Bool
  | [], _, seen => seen
  | c :: t, prevCased, seen =>
    if c.isUpper then (if prevCased then false else istitleAux t true true)
    else if c.isLower then (if prevCased then istitleAux t true true else false)
    else istitleAux t false seen

/-- Python `str.istitle()`. -/
def istitle (s : String) : Bool := istitleAux s.data false false

/-- Python `str.isupper()`: at least one cased character and no lowercase one. -/
def isupperStr (s : String) : Bool :=
  s.data.any (fun c => c.isUpper || c.isLower) && s.data.all (fun c => !c.isLower)

/-- Descending list `[n-1, …, 0]`: the order a greedy regex quantifier tries
its consumption counts in. -/
def rangeDesc (n : Nat) : List Nat := (List.range n).reverse

/-- Length of the maximal run of `\s` characters starting at position `p`. -/
def wsRunFrom (l : List Char) (p : Nat) : Nat :=
  ((l.drop p).takeWhile isWs).length

/-- Length of the maximal run of characters satisfying `cls` from `p`. -/
def classRun (l : List Char) (p : Nat) (cls : Char → Bool) : Nat :=
  ((l.drop p).takeWhile cls).length

/-- Does a `re.MULTILINE` `^` match at position `p`? -/
def isLineStart (l : List Char) (p : Nat) : Bool :=
  p = 0 || l.get? (p - 1) = some '\n'

/-- Does a `re.MULTILINE` `$` match at position `p`? -/
def atLineEnd (l : List Char) (p : Nat) : Bool :=
  p = l.length || l.get? p = some '\n'

/-- Case-insensitive literal match of `lit` (given lowercase) at position `p`. -/
def ciPrefixAt (l : List Char) (p : Nat) (lit : String) : Bool :=
  ((l.drop p).take lit.data.length).map Char.toLower == lit.data

/-! ## Price normalisation (`normalize_best_price`, source lines 296-321) -/

/-- Condition of the was-price branch: `"Range was " in p or "Was " in p`
(case-sensitive, exactly as in the source). -/
def wasMarker (p : String) : Bool :=
  containsSub p "Range was " || containsSub p "Was "

/-- Condition of the member-price branch: `"Member Price" in p or " for " in p`. -/
def memberMarker (p : String) : Bool :=
  containsSub p "Member Price" || containsSub p " for "

/-- The was-price extraction
`p[p.find("$"):p.find(" - ")].strip() if " - " in p else p[p.find("$"):].split()[0]`
wrapped in `try/except`: slicing never raises, and the only reachable
exception is the `IndexError` of `split()[0]` on an empty token list, which
the source turns into `price_was = None` (here `none`). -/
def wasExtract (p : String) : Option String :=
  if containsSub p " - " then
    some (strip (pySlice p (pyFind p "$") (pyFind p " - ")))
  else
    match wsSplitL (pySliceFrom p (pyFind p "$")).data with
    | [] => none
    | tok :: _ => some ⟨tok⟩

/-- The string `p2 = p.replace("Member Price", "").strip()` of the
member-price branch. -/
def memberP2 (p : String) : String :=
  strip (replaceStr p "Member Price" "")

/-- Guard `" for " in p2 and "$" in p2` of the member-price branch. -/
def memberGuard (p2 : String) : Bool :=
  containsSub p2 " for " && containsSub p2 "$"

/-- The parsing done inside the member-price `try` block:
quantity = digits of `p2.split(" for ")[0].strip()`,
total = `float(p2.split(" for ")[1].split(" - ")[0].strip().replace("$","").strip())`,
and the optional trailing unit segment `after_for.split(" - ", 1)[1].strip()`.
The only raising operation is `float`, modelled by `pyFloat = none`; in that
case the whole `try` block leaves `best_price`/`best_unitprice` unchanged. -/
def memberParse (p2 : String) : Option (Nat × ℚ × Option String) :=
  let parts := splitStr p2 " for "
  let qty_str := strip (parts.headD "")
  let qty := pyIntDigits qty_str
  let after_for := parts.getD 1 ""
  let price_str := strip ((splitStr after_for " - ").headD "")
  match pyFloat (strip (replaceStr price_str "$" "")) with
  | none => none
  | some total =>
    some (qty, total,
      if containsSub after_for " - " then some (strip (splitOnceRest after_for " - "))
      else none)

/-- Result of the member-price `try` block once `memberParse` succeeded:
`best_price = f"${round(total/qty, 2)}"` when `qty > 0 and total > 0`, and
`best_unitprice` replaced by the trailing segment when present. -/
def memberPair (itemprice unitprice p2 : String) : String × String :=
  match memberParse p2 with
  | none => (itemprice, unitprice)
  | some (qty, total, useg) =>
    ((if 0 < qty ∧ 0 < total then "$" ++ fmtRound2 (ratDivNat total qty) else itemprice),
     useg.getD unitprice)

/-- Embeds `normalize_best_price(itemprice, unitprice, promo)` from
src/lib/scraper_woolworths.py lines 296-321.  Returns
`(best_price, best_unitprice, price_was)`; `price_was = none` models
Python `None`. -/
def normalize_best_price (itemprice unitprice promo : String) :
    String × String × Option String :=
  if promo = "" then (itemprice, unitprice, none)
  else
    let price_was := if wasMarker promo then wasExtract promo else none
    let pair :=
      if memberMarker promo then
        (if memberGuard (memberP2 promo) then memberPair itemprice unitprice (memberP2 promo)
         else (itemprice, unitprice))
      else (itemprice, unitprice)
    (pair.1, pair.2, price_was)

/-! ## Category discovery and resume filtering (source lines 208-236) -/

/-- A catalog category as built by `get_categories`. -/
structure Category where
  name : String
  href : String
  endpoint : String
deriving DecidableEq, Repr

/-- Error raised by `wait_for` (source lines 140-141): selenium's
`WebDriverWait(...).until(...)` raises `TimeoutException` when the element
does not appear within the bounded wait, and `get_categories` does not
catch it. -/
inductive ScrapeError where
  | timeout : ScrapeError
deriving DecidableEq, Repr

/-- One `<a class="item ng-star-inserted">` element of the revealed category
menu: its (stripped) text and its `href` attribute, `none` when absent. -/
structure Anchor where
  text : String
  href : Option String
deriving DecidableEq, Repr

/-- The per-anchor body of the `get_categories` loop: drop the anchor unless
its name is non-empty and its link starts with `/shop/browse/`; build the
endpoint; drop it when an ignore substring matches case-insensitively. -/
def categoryOfAnchor (ignored : List String) (a : Anchor) : Option Category :=
  let name := strip a.text
  let href := a.href.getD ""
  if name = "" ∨ ¬ ("/shop/browse/".data.isPrefixOf href.data) then none
  else
    let endpoint := stripChar (replaceStr href "/shop/browse/" "") '/'
    if ignored.any (fun ig => containsSub (lower endpoint) (lower ig)) then none
    else some ⟨name, href, endpoint⟩

/-- Embeds `get_categories(driver)` (source lines 208-225).  `menuPage` is
`some anchors` when `wait_for` found the category-menu disclosure control
within its bounded wait and the revealed markup parsed to the given anchor
list, and `none` when the wait timed out — in which case the uncaught
`TimeoutException` propagates, modelled as `Except.error`. -/
def get_categories (ignored : List String) (menuPage : Option (List Anchor)) :
    Except ScrapeError (List Category) :=
  match menuPage with
  | none => Except.error ScrapeError.timeout
  | some anchors => Except.ok (anchors.filterMap (categoryOfAnchor ignored))

/-- One step of the `filter_for_resume` loop, carrying `(keep, found)`. -/
def filterStep (rcat : String) (st : List Category × Bool) (c : Category) :
    List Category × Bool :=
  let found := if ¬ st.2 ∧ c.name = rcat then true else st.2
  (if found then st.1 ++ [c] else st.1, found)

/-- Embeds `filter_for_resume(categories)` (source lines 227-236) with the
module-level `RESUME_ACTIVE` / `RESUME_CATEGORY` configuration passed as
parameters. -/
def filter_for_resume (resume_active : Bool) (resume_category : String)
    (categories : List Category) : List Category :=
  if ¬ resume_active then categories
  else (categories.foldl (filterStep resume_category) ([], false)).1

/-! ## Section slicing and ingredients parsing (source lines 327-336, 519-565) -/

/-- Match the regex tail `\s*[:\-]?\s*$` (MULTILINE) starting at position
`q`, returning the position where `$` matched, i.e. `m.end()` of the heading
regex.  Greedy backtracking order: outer `\s*` longest first; for each
amount, the optional `[:\-]` is tried consumed first; then the inner `\s*`
longest first; `$` holds at the end of the text or just before a newline. -/
def headingTailEnd (l : List Char) (q : Nat) : Option Nat :=
  let w := wsRunFrom l q
  (rangeDesc (w + 1)).findSome? fun k1 =>
    let pos1 := q + k1
    let colonTry : Option Nat :=
      match l.get? pos1 with
      | some c =>
        if c = ':' || c = '-' then
          let w2 := wsRunFrom l (pos1 + 1)
          (rangeDesc (w2 + 1)).findSome? fun k2 =>
            let pos2 := pos1 + 1 + k2
            if atLineEnd l pos2 then some pos2 else none
        else none
      | none => none
    match colonTry with
    | some e => some e
    | none => if atLineEnd l pos1 then some pos1 else none

/-- End position (`m.end()`) of the first match of
`ING_HEADING_PATTERN = r'^\s*ingredients\s*[:\-]?\s*$'`
(IGNORECASE | MULTILINE), or `none`.  `re.search` returns the leftmost
match, so line-start positions are tried in increasing order; the leading
`\s*` is deterministic (maximal) because the literal starts with a
non-whitespace character. -/
def ingMatchEnd (l : List Char) : Option Nat :=
  (List.range (l.length + 1)).findSome? fun p =>
    if isLineStart l p then
      let q0 := p + wsRunFrom l p
      if ciPrefixAt l q0 "ingredients" then headingTailEnd l (q0 + 11)
      else none
    else none

/-- End position of the first match of
`NUT_HEADING_PATTERN = r'^\s*nutrition(?:al)?\s+(?:information|facts)\s*[:\-]?\s*$'`
(IGNORECASE | MULTILINE), or `none`.  The optional `al` is tried consumed
first (greedy); `\s+` is deterministic maximal because both alternatives
start with a non-whitespace character. -/
def nutMatchEnd (l : List Char) : Option Nat :=
  (List.range (l.length + 1)).findSome? fun p =>
    if isLineStart l p then
      let q0 := p + wsRunFrom l p
      if ciPrefixAt l q0 "nutrition" then
        let afterBase := q0 + 9
        let tryFrom : Nat → Option Nat := fun q1 =>
          let w := wsRunFrom l q1
          if w = 0 then none
          else
            let q2 := q1 + w
            if ciPrefixAt l q2 "information" then headingTailEnd l (q2 + 11)
            else if ciPrefixAt l q2 "facts" then headingTailEnd l (q2 + 5)
            else none
        match (if ciPrefixAt l afterBase "al" then tryFrom (afterBase + 2) else none) with
        | some e => some e
        | none => tryFrom afterBase
      else none
    else none

/-- The `NEXT_HEADINGS` keyword list of the source (lines 331-336). -/
def NEXT_HEADINGS : List String :=
  ["allergen", "allergy", "contains", "may contain", "nutrition", "nutritional",
   "storage", "directions", "warning", "warnings", "country of origin",
   "servings", "preparation", "usage", "safety", "manufacturer", "brand",
   "product warnings", "information", "dietary", "advisory", "ingredients"]

/-- The heuristic short-heading test of `_slice_section` (lines 549-551):
at most 60 characters, title-cased or upper-cased, not ending in a colon,
and not starting (lowercased) with a bullet or a dash. -/
def looksLikeHeading (s : String) : Bool :=
  s.length ≤ 60 && (istitle s || isupperStr s)
    && !(s.data.getLast? = some ':')
    && !("•".data.isPrefixOf (lower s).data)
    && !("- ".data.isPrefixOf (lower s).data)

/-- The heuristic cut of `_slice_section` (lines 546-554): the first index
`i > 0` among the first 120 lines whose stripped content is non-empty and
looks like a heading; the cut offset is `len("\n".join(lines[:i]))`.  A
heading-shaped line at index 0 does not break the loop. -/
def findCut (lines : List String) : Option Nat :=
  (List.range (min lines.length 120)).findSome? fun i =>
    let s := strip (lines.getD i "")
    if s ≠ "" ∧ looksLikeHeading s ∧ 0 < i then
      some (String.intercalate "\n" (lines.take i)).length
    else none

/-- Minimum of a list of naturals, `none` when empty (Python `min` guarded by
`if candidates`). -/
def minList (l : List Nat) : Option Nat :=
  l.foldl (fun acc n =>
    match acc with
    | none => some n
    | some m => some (min m n)) none

/-- The candidate cut offsets of `_slice_section` (lines 538-544): for every
`NEXT_HEADINGS` keyword, the position of `"\n" + kw` in the lowercased tail,
plus `0` when the tail itself starts with the keyword. -/
def sliceCandidates (lowTail : List Char) : List Nat :=
  NEXT_HEADINGS.foldl (fun acc kw =>
    let acc :=
      match findSubL ('\n' :: kw.data) lowTail with
      | some k => acc ++ [k]
      | none => acc
    if kw.data.isPrefixOf lowTail then acc ++ [0] else acc) []

/-- Embeds `_slice_section(text, heading_regex)` (source lines 519-560);
`useIng = true` corresponds to being called with `ING_HEADING_PATTERN`
(the source compares the regex by identity to pick the fallback keyword). -/
def _slice_section (text : String) (useIng : Bool) : String :=
  if text = "" then ""
  else
    let t : List Char := text.data.filter (· ≠ '\r')
    let startIdx : Option Nat :=
      match (if useIng then ingMatchEnd t else nutMatchEnd t) with
      | some e => some e
      | none =>
        let low := lowerL t
        let key : String := if useIng then "ingredient" else "nutrition"
        match findSubL key.data low with
        | none => none
        | some pos =>
          match findSubL ['\n'] (t.drop pos) with
          | some rel => some (pos + rel + 1)
          | none => some pos
    match startIdx with
    | none => ""
    | some si =>
      let tail := lstripL (t.drop si)
      let lowTail := lowerL tail
      let candidates := sliceCandidates lowTail
      let lines := splitlines ⟨tail⟩
      let cutAt := findCut lines
      let nextIdx : Option Nat :=
        match minList candidates with
        | some m =>
          match cutAt with
          | some c => if c < m then some c else some m
          | none => some m
        | none => cutAt
      match nextIdx with
      | none => (⟨stripL tail⟩ : String)
      | some ni => (⟨stripL (tail.take ni)⟩ : String)

/-- Embeds `parse_ingredients_from_text(text)` (source lines 562-565). -/
def parse_ingredients_from_text (text : String) : String :=
  let sect := _slice_section text true
  if sect = "" then ""
  else (⟨stripL (collapseSpacesAux sect.data false)⟩ : String)

/-! ## Nutrition parsing (source lines 338-349, 438-517, 567-591) -/

/-- Match of the sub-pattern `fat[, \-]*total|total\s+fat` of `NUTRIENT_KEYS`
anywhere in the (already lowercased) text.  The character classes are
disjoint from the first letters of the following literals, so the greedy
quantifiers are deterministic. -/
def matchFatTotal (l : List Char) : Bool :=
  ((List.range (l.length + 1)).any fun p =>
    "fat".data.isPrefixOf (l.drop p) &&
      "total".data.isPrefixOf
        (l.drop (p + 3 + classRun l (p + 3) (fun c => c = ',' || c = ' ' || c = '-')))) ||
  ((List.range (l.length + 1)).any fun p =>
    "total".data.isPrefixOf (l.drop p) &&
      (let w := classRun l (p + 5) isWs
       decide (0 < w) && "fat".data.isPrefixOf (l.drop (p + 5 + w))))

/-- Match of the sub-pattern `fat[, \-]*saturate|saturated\s+fat`. -/
def matchFatSaturated (l : List Char) : Bool :=
  ((List.range (l.length + 1)).any fun p =>
    "fat".data.isPrefixOf (l.drop p) &&
      "saturate".data.isPrefixOf
        (l.drop (p + 3 + classRun l (p + 3) (fun c => c = ',' || c = ' ' || c = '-')))) ||
  ((List.range (l.length + 1)).any fun p =>
    "saturated".data.isPrefixOf (l.drop p) &&
      (let w := classRun l (p + 9) isWs
       decide (0 < w) && "fat".data.isPrefixOf (l.drop (p + 9 + w))))

/-- The `NUTRIENT_KEYS` lookup (source lines 338-347): first pattern whose
`re.search` hits the lowercased nutrient name wins, in source order.
`sugars?` reduces to the substring `sugar`, and (by regex alternation
precedence) `(dietary\s+)?fibre|fiber` to `fibre` or `fiber`. -/
def nutrientKeyOf (low : List Char) : Option String :=
  let has : String → Bool := fun lit => (findSubL lit.data low).isSome
  if has "energy" then some "energy"
  else if has "protein" then some "protein_g"
  else if matchFatTotal low then some "fat_total_g"
  else if matchFatSaturated low then some "fat_saturated_g"
  else if has "carbohydrate" then some "carbohydrate_g"
  else if has "sugar" then some "sugars_g"
  else if has "fibre" || has "fiber" then some "dietary_fibre_g"
  else if has "sodium" then some "sodium_mg"
  else none

/-- The unit alternation of `VAL_PATTERN`, in source order (the matcher tries
them left to right at each position, case-insensitively). -/
def unitLits : List String := ["kJ", "kcal", "g", "mg", "mcg", "µg", "kj"]

/-- Unit match at position `p`: returns the matched text (original casing,
as `re.findall` captures it) and the end position. -/
def unitAt (l : List Char) (p : Nat) : Option (String × Nat) :=
  unitLits.findSome? fun ul =>
    if ((l.drop p).take ul.data.length).map Char.toLower == (lower ul).data then
      some ((⟨(l.drop p).take ul.data.length⟩ : String), p + ul.data.length)
    else none

/-- One match of `VAL_PATTERN = r'(\d+(?:[.,]\d+)?)\s*(kJ|kcal|g|mg|mcg|µg|kj)'`
starting exactly at `p`: the digit runs are deterministic (no following
element can start with a digit); the optional fraction is tried consumed
first and dropped on failure. -/
def valMatchAt (l : List Char) (p : Nat) : Option (String × String × Nat) :=
  let ds := classRun l p Char.isDigit
  if ds = 0 then none
  else
    let afterInt := p + ds
    let tryFrom : Nat → Option (String × String × Nat) := fun numEnd =>
      let w := wsRunFrom l numEnd
      (unitAt l (numEnd + w)).map fun ue =>
        ((⟨(l.drop p).take (numEnd - p)⟩ : String), ue.1, ue.2)
    let withFrac : Option (String × String × Nat) :=
      match l.get? afterInt with
      | some c =>
        if c = '.' || c = ',' then
          let fs := classRun l (afterInt + 1) Char.isDigit
          if 0 < fs then tryFrom (afterInt + 1 + fs) else none
        else none
      | none => none
    match withFrac with
    | some r => some r
    | none => tryFrom afterInt

/-- Scan driver of `VAL_PATTERN.findall`: leftmost, non-overlapping matches.
Each step advances at least one position, so fuel `l.length + 1` suffices. -/
def valFindAllAux (l : List Char) : Nat → Nat → List (String × String)
  | 0, _ => []
  | fuel + 1, p =>
    if l.length ≤ p then []
    else
      match valMatchAt l p with
      | some r => (r.1, r.2.1) :: valFindAllAux l fuel (max r.2.2 (p + 1))
      | none => valFindAllAux l fuel (p + 1)

/-- `VAL_PATTERN.findall(s)` as (number text, unit text) pairs. -/
def valFindAll (s : String) : List (String × String) :=
  valFindAllAux s.data (s.data.length + 1) 0

/-- The comprehension
`[f"{n} {u}".replace(" ,", ",") for (n, u) in VAL_PATTERN.findall(ln)]`. -/
def collectVals (ln : String) : List String :=
  (valFindAll ln).map fun nu => replaceStr (nu.1 ++ " " ++ nu.2) " ," ","

/-- Embeds `_detect_order_from_table_text(table_text)` (source lines 451-459). -/
def _detect_order_from_table_text (tableText : String) : String × String :=
  let low := lower tableText
  let ps := pyFind low "per serving"
  let p100 := pyFind low "per 100"
  if ps ≠ -1 ∧ p100 ≠ -1 then
    (if ps < p100 then ("per_serving", "per_100g") else ("per_100g", "per_serving"))
  else if p100 ≠ -1 then ("per_100g", "per_serving")
  else ("per_serving", "per_100g")

/-- Dict assignment `d[k] = v` on an insertion-ordered association list. -/
def updAssoc (m : List (String × String)) (k v : String) : List (String × String) :=
  if m.any (fun kv => kv.1 == k) then
    m.map (fun kv => if kv.1 = k then (k, v) else kv)
  else m ++ [(k, v)]

/-- The group-1 extraction of
`re.search(r"serving\s*size\s*[:\-]?\s*([^\n]+)", sect, re.I)`: after
`size`, greedy `\s*`, optional `[:\-]` (consumed first), greedy `\s*`,
then at least one non-newline character; the group runs to the end of the
line.  Backtracking order follows the regex engine. -/
def servingTailGroup (l : List Char) (b : Nat) : Option Nat :=
  let w := wsRunFrom l b
  (rangeDesc (w + 1)).findSome? fun k1 =>
    let pos1 := b + k1
    let colonTry : Option Nat :=
      match l.get? pos1 with
      | some c =>
        if c = ':' || c = '-' then
          let w2 := wsRunFrom l (pos1 + 1)
          (rangeDesc (w2 + 1)).findSome? fun k2 =>
            let pos2 := pos1 + 1 + k2
            match l.get? pos2 with
            | some d => if d ≠ '\n' then some pos2 else none
            | none => none
        else none
      | none => none
    match colonTry with
    | some g => some g
    | none =>
      match l.get? pos1 with
      | some d => if d ≠ '\n' then some pos1 else none
      | none => none

/-- The serving-size match of `parse_nutrition_from_text` (source line 570):
`m.group(1)` of the first (leftmost) match, or `none`. -/
def servingSizeMatch (l : List Char) : Option String :=
  (List.range (l.length + 1)).findSome? fun p =>
    if ciPrefixAt l p "serving" then
      let a := p + 7
      let a2 := a + wsRunFrom l a
      if ciPrefixAt l a2 "size" then
        (servingTailGroup l (a2 + 4)).map fun g =>
          (⟨(l.drop g).takeWhile (· ≠ '\n')⟩ : String)
      else none
    else none

/-- A parsed nutrition section: the `out` dict of
`parse_nutrition_from_text` / `parse_nutrition_from_table`, with each key
present exactly when the source would insert it (`none`/`[]` = absent).
The functions return `none` when the dict would be empty (falsy). -/
structure NutritionText where
  serving_size : Option String
  per_serving : List (String × String)
  per_100g : List (String × String)
deriving DecidableEq, Repr

/-- The double bucket assignment shared by both nutrition parsers:
`(per_serving if which == "per_serving" else per_100g)[key] = v`. -/
def putBucket (acc : List (String × String) × List (String × String))
    (key v which : String) : List (String × String) × List (String × String) :=
  if which = "per_serving" then (updAssoc acc.1 key v, acc.2)
  else (acc.1, updAssoc acc.2 key v)

/-- Embeds `parse_nutrition_from_text(text)` (source lines 567-591). -/
def parse_nutrition_from_text (text : String) : Option NutritionText :=
  let sect := _slice_section text false
  if sect = "" then none
  else
    let serving_size := ((servingSizeMatch sect.data).map strip).getD ""
    let lines := ((splitlines sect).map strip).filter (· ≠ "")
    let order := _detect_order_from_table_text sect
    let buckets := lines.foldl (fun acc ln =>
      let vals := collectVals ln
      match nutrientKeyOf (lowerL ln.data) with
      | none => acc
      | some key =>
        match vals with
        | [] => acc
        | v1 :: restv =>
          let acc := putBucket acc key v1 order.1
          match restv with
          | v2 :: _ => putBucket acc key v2 order.2
          | [] => acc) (([], []) : List (String × String) × List (String × String))
    if serving_size ≠ "" ∨ buckets.1 ≠ [] ∨ buckets.2 ≠ [] then
      some ⟨if serving_size ≠ "" then some serving_size else none, buckets.1, buckets.2⟩
    else none

/-- The table object returned by the in-page table walker
(`_extract_nutrition_table_js`), as consumed by `parse_nutrition_from_table`. -/
structure TableObj where
  headers : List String
  rows : List (List String)
  serving_size : String
  table_text : String
deriving DecidableEq, Repr

/-- First index satisfying a predicate, as Python
`next((i for i,h in enumerate(hdrs) if P h), -1)`. -/
def firstIdx (hdrs : List String) (pred : String → Bool) : Int :=
  match (List.range hdrs.length).find? (fun i => pred (hdrs.getD i "")) with
  | some i => (i : Int)
  | none => -1

/-- Embeds `_detect_column_order_from_headers(headers)` (source lines 438-449). -/
def _detect_column_order_from_headers (headers : List String) : Nat × Int × Int :=
  let hdrs := headers.map lower
  let idx_nutr : Nat :=
    if hdrs.any (fun h => containsSub h "nutrient" || containsSub h "average quantity"
        || containsSub h "avg qty") then
      match (List.range hdrs.length).find? (fun i => containsSub (hdrs.getD i "") "nutrient") with
      | some i => i
      | none => 0
    else 0
  let idx_serv := firstIdx hdrs (fun h => containsSub h "per serving" || containsSub h "serving")
  let idx_100 := firstIdx hdrs
    (fun h => containsSub h "per 100" || containsSub h "100g" || containsSub h "100 ml")
  if idx_serv = -1 ∨ idx_100 = -1 then
    let numericish := (List.range hdrs.length).filter
      (fun i => containsSub (hdrs.getD i "") "per 100" || containsSub (hdrs.getD i "") "100"
        || containsSub (hdrs.getD i "") "serv")
    match numericish with
    | a :: b :: _ => (idx_nutr, (a : Int), (b : Int))
    | _ => (idx_nutr, idx_serv, idx_100)
  else (idx_nutr, idx_serv, idx_100)

/-- The `put` helper of `parse_nutrition_from_table` (source lines 481-484):
skip empty values, else assign into the named bucket. -/
def putTable (acc : List (String × String) × List (String × String))
    (key v which : String) : List (String × String) × List (String × String) :=
  if v = "" then acc else putBucket acc key v which

/-- Embeds `parse_nutrition_from_table(table_obj)` (source lines 461-517);
`none` models the empty dict. -/
def parse_nutrition_from_table (tbl : TableObj) : Option NutritionText :=
  let headers := tbl.headers
  let rows := tbl.rows
  let serving_size := strip tbl.serving_size
  let table_text := tbl.table_text
  if rows = [] then
    (if serving_size ≠ "" then some ⟨some serving_size, [], []⟩ else none)
  else
    let idxs :=
      if headers ≠ [] then _detect_column_order_from_headers headers
      else (0, (-1 : Int), (-1 : Int))
    let inferOnly := idxs.2.1 = -1 ∧ idxs.2.2 = -1
    let order :=
      if inferOnly then _detect_order_from_table_text table_text
      else ("per_serving", "per_100g")
    let buckets := rows.foldl (fun acc r =>
      if r = [] then acc
      else
        let name := strip (if idxs.1 < r.length then r.getD idxs.1 "" else r.getD 0 "")
        if name = "" then acc
        else
          match nutrientKeyOf (lowerL name.data) with
          | none => acc
          | some ckey =>
            if inferOnly then
              match collectVals (String.intercalate " " r) with
              | [] => acc
              | v1 :: restv =>
                let acc := putTable acc ckey v1 order.1
                match restv with
                | v2 :: _ => putTable acc ckey v2 order.2
                | [] => acc
            else
              let v_serv :=
                if 0 ≤ idxs.2.1 ∧ idxs.2.1 < (r.length : Int) then strip (r.getD idxs.2.1.toNat "")
                else ""
              let v_100 :=
                if 0 ≤ idxs.2.2 ∧ idxs.2.2 < (r.length : Int) then strip (r.getD idxs.2.2.toNat "")
                else ""
              putTable (putTable acc ckey v_serv "per_serving") ckey v_100 "per_100g")
      (([], []) : List (String × String) × List (String × String))
    if serving_size ≠ "" ∨ buckets.1 ≠ [] ∨ buckets.2 ≠ [] then
      some ⟨if serving_size ≠ "" then some serving_size else none, buckets.1, buckets.2⟩
    else none

/-! ## Structured metadata fallback (source lines 680-708) -/

/-- A parsed JSON value (the result of `json.loads` on an LD-JSON blob). -/
inductive Json where
  | null : Json
  | bool : Bool → Json
  | num : ℚ → Json
  | str : String → Json
  | arr : List Json → Json
  | obj : List (String × Json) → Json

/-- Python truthiness of a JSON value. -/
def jsonTruthy : Json → Bool
  | Json.null => false
  | Json.bool b => b
  | Json.num q => q ≠ 0
  | Json.str s => s ≠ ""
  | Json.arr l => !l.isEmpty
  | Json.obj l => !l.isEmpty

/-- Dict key lookup `k in x` / `x[k]` on a JSON object. -/
def assocJson (kvs : List (String × Json)) (k : String) : Option Json :=
  (kvs.find? (fun kv => kv.1 == k)).map (fun kv => kv.2)

mutual
/-- Embeds the nested `hunt(x)` of `fetch_details_for_link` (source lines
693-704): return `x['nutrition']` or `x['nutritionInformation']` when
present, else the first truthy recursive result over values/elements. -/
def hunt : Json → Option Json
  | Json.obj kvs =>
    (match assocJson kvs "nutrition" with
     | some v => some v
     | none =>
       match assocJson kvs "nutritionInformation" with
       | some v => some v
       | none => huntPairs kvs)
  | Json.arr l => huntList l
  | _ => none

/-- The `for v in x.values()` loop of `hunt`. -/
def huntPairs : List (String × Json) → Option Json
  | [] => none
  | kv :: rest =>
    match hunt kv.2 with
    | some r => if jsonTruthy r then some r else huntPairs rest
    | none => huntPairs rest

/-- The `for v in x` loop of `hunt`. -/
def huntList : List Json → Option Json
  | [] => none
  | x :: rest =>
    match hunt x with
    | some r => if jsonTruthy r then some r else huntList rest
    | none => huntList rest
end

/-- The LD-JSON loop of `fetch_details_for_link` (lines 688-708): for each
blob, skip it when `json.loads` raised (`none`), else hunt; accept the first
result that is a non-empty dict, which becomes `{"raw": nut}`. -/
def firstLdNutrition (blobs : List (Option Json)) : Option Json :=
  blobs.findSome? fun ob =>
    ob.bind fun j =>
      (hunt j).bind fun nut =>
        match nut with
        | Json.obj (kv :: rest) => some (Json.obj (kv :: rest))
        | _ => none

/-! ## Detail fetching (source lines 639-723) -/

/-- The nutrition outcome stored in a `DetailRecord`: either a dict parsed
from text or table (`table`) or the verbatim `{"raw": …}` payload of the
LD-JSON fallback; `none` models the empty dict `{}`. -/
inductive NutritionResult where
  | table : NutritionText → NutritionResult
  | raw : Json → NutritionResult

/-- The record `{"ingredients": …, "nutrition": …}` returned and cached by
`fetch_details_for_link`. -/
structure DetailRecord where
  ingredients : String
  nutrition : Option NutritionResult

/-- What the browsing environment yields for one product page: the visible
body text of the first read, the re-read after the extra scroll/expand pass
(used only when the first read lacks `"nutrition"`), the parsed LD-JSON
blobs (`none` = `json.loads` failure) and the table-walker result. -/
structure DetailEnv where
  text1 : String
  text2 : String
  ldBlobs : List (Option Json)
  tableObj : Option TableObj

/-- Observable side effects of one `fetch_details_for_link` call: whether a
new browsing context (tab) was opened, and the navigations performed. -/
structure FetchEffects where
  openedTab : Bool
  navigated : List String
deriving DecidableEq, Repr

/-- Embeds `fetch_details_for_link(driver, url)` (source lines 639-723) with
the per-run cache threaded explicitly and the browser modelled by `env`.
Returns the record, the updated cache, and the side effects.  The guard
`if not url` returns the empty record before the cache lookup, before any
tab is opened and before any navigation; a cache hit also opens no tab. -/
def fetch_details_for_link (fetchIng fetchNut : Bool)
    (cache : List (String × DetailRecord)) (env : String → DetailEnv)
    (url : String) : DetailRecord × List (String × DetailRecord) × FetchEffects :=
  if url = "" then (⟨"", none⟩, cache, ⟨false, []⟩)
  else
    match (cache.find? (fun kv => kv.1 == url)).map (fun kv => kv.2) with
    | some r => (r, cache, ⟨false, []⟩)
    | none =>
      let e := env url
      let text_block := if ¬ containsSub (lower e.text1) "nutrition" then e.text2 else e.text1
      let ingredients := if fetchIng then parse_ingredients_from_text text_block else ""
      let nutrition : Option NutritionResult :=
        if fetchNut then
          match parse_nutrition_from_text text_block with
          | some nd => some (NutritionResult.table nd)
          | none =>
            match firstLdNutrition e.ldBlobs with
            | some nut => some (NutritionResult.raw (Json.obj [("raw", nut)]))
            | none =>
              match e.tableObj with
              | some tb => (parse_nutrition_from_table tb).map NutritionResult.table
              | none => none
        else none
      let r : DetailRecord := ⟨ingredients, nutrition⟩
      (r, cache ++ [(url, r)], ⟨true, [url]⟩)

/-! ## Resilient row writer (source lines 95-124) -/

/-- Embeds `os.path.splitext(p)` (with `/` as the path separator): the
extension starts at the last dot, provided some non-dot character stands
between the last separator and that dot. -/
def splitext (p : String) : String × String :=
  let l := p.data
  let sepIndex := pyRFindL ['/'] l
  let dotIndex := pyRFindL ['.'] l
  if sepIndex < dotIndex then
    (if ((l.drop (sepIndex + 1).toNat).take (dotIndex.toNat - (sepIndex + 1).toNat)).any
        (· ≠ '.') then
      ((⟨l.take dotIndex.toNat⟩ : String), (⟨l.drop dotIndex.toNat⟩ : String))
    else (p, ""))
  else (p, "")

/-- The alternate path `f"{root}_{ts}{ext or '.csv'}"` built by the fallback
branch of `open_csv_writer_with_retry`. -/
def altPath (base ts : String) : String :=
  let re := splitext base
  re.1 ++ "_" ++ ts ++ (if re.2 = "" then ".csv" else re.2)

/-- The file-system behaviour seen by `open_csv_writer_with_retry`:
`openBase n` is the outcome of the `open(base_path, "a")` attempt number `n`
(`none` = `PermissionError`, `some isNew` = success with
`is_new = not os.path.exists(base_path)`); `openAlt` tells whether opening
the alternate file succeeds (the source does not guard it, so a failure
there propagates); `ts` is the timestamp `datetime.now().strftime(...)`. -/
structure WriterEnv where
  openBase : Nat → Option Bool
  openAlt : Bool
  ts : String

/-- An open CSV writer: the path it is bound to and the rows written so far
(by `open_csv_writer_with_retry` itself, i.e. at most the header). -/
structure CsvWriter where
  path : String
  rows : List (List String)
deriving DecidableEq, Repr

/-- The retry loop of `open_csv_writer_with_retry`: `remaining` counts the
attempts left out of `max_retries`, `attempt` the attempts made.  On success
the header is seeded only when the file is new and the header non-empty; when
the attempts are exhausted the timestamped alternate file is opened and the
header written unconditionally. -/
def open_csv_loop (env : WriterEnv) (base : String) (header : List String) :
    Nat → Nat → Except Unit CsvWriter
  | 0, _ =>
    (if env.openAlt then Except.ok ⟨altPath base env.ts, [header]⟩
     else Except.error ())
  | remaining + 1, attempt =>
    match env.openBase attempt with
    | some isNew =>
      Except.ok ⟨base, if isNew ∧ header ≠ [] then [header] else []⟩
    | none => open_csv_loop env base header remaining (attempt + 1)

/-- Embeds `open_csv_writer_with_retry(base_path, header, max_retries, ...)`
(source lines 95-124); the exponential backoff sleeps have no observable
effect beyond time and are not modelled. -/
def open_csv_writer_with_retry (env : WriterEnv) (base : String)
    (header : List String) (max_retries : Nat) : Except Unit CsvWriter :=
  open_csv_loop env base header max_retries 0

/-- Contents of file `p` after the rows `extra` are appended through writer
`w` (the writer only ever writes to the path it is bound to). -/
def writesTo (w : CsvWriter) (extra : List (List String)) (p : String) :
    List (List String) :=
  if p = w.path then w.rows ++ extra else []

/-- The `CSV_HEADER` constant of the source (lines 72-78). -/
def CSV_HEADER : List String :=
  ["Product Code", "Category", "Item Name",
   "Best Price", "Best Unit Price",
   "Item Price", "Unit Price",
   "Price Was", "Special Text", "Complex Promo Text", "Link",
   "Ingredients", "NutritionJSON"]

/-! ## Main-loop tile processing (source lines 260-294 and 816-847) -/

/-- The dict returned by `get_tile_texts` after its final strip loop: the
eight text regions read from the tile's shadow DOM. -/
structure TileData where
  name : String
  price : String
  unitprice : String
  special : String
  promo : String
  was : String
  link : String
  code : String
deriving DecidableEq, Repr

/-- The final loop of `get_tile_texts` (lines 292-293):
`data[k] = (data.get(k) or "").strip()` for every field. -/
def stripTileData (d : TileData) : TileData :=
  ⟨strip d.name, strip d.price, strip d.unitprice, strip d.special,
   strip d.promo, strip d.was, strip d.link, strip d.code⟩

/-- Minimal JSON string escaping used by `json.dumps` on the nutrition
payloads handled here (quote and backslash; `ensure_ascii=False` leaves
other characters alone). -/
def jsonEscape (s : String) : String :=
  ⟨s.data.foldr (fun c acc => if c = '"' ∨ c = '\\' then '\\' :: c :: acc else c :: acc) []⟩

/-- Render a JSON string literal. -/
def jsonDumpStr (s : String) : String := "\"" ++ jsonEscape s ++ "\""

mutual
/-- Render a JSON value the way `json.dumps(..., ensure_ascii=False)` does
(default separators `", "` and `": "`). -/
def jsonDumps : Json → String
  | Json.null => "null"
  | Json.bool b => if b then "true" else "false"
  | Json.num q => if q.den = 1 then toString q.num else toString q
  | Json.str s => jsonDumpStr s
  | Json.arr l => "[" ++ String.intercalate ", " (jsonDumpsList l) ++ "]"
  | Json.obj kvs => "\x7b" ++ String.intercalate ", " (jsonDumpsPairs kvs) ++ "\x7d"

/-- Render a list of JSON values. -/
def jsonDumpsList : List Json → List String
  | [] => []
  | x :: rest => jsonDumps x :: jsonDumpsList rest

/-- Render the members of a JSON object. -/
def jsonDumpsPairs : List (String × Json) → List String
  | [] => []
  | kv :: rest => (jsonDumpStr kv.1 ++ ": " ++ jsonDumps kv.2) :: jsonDumpsPairs rest
end

/-- View a parsed nutrition dict as a JSON value, in the insertion order the
source builds it (`serving_size`, `per_serving`, `per_100g`). -/
def nutritionTextToJson (t : NutritionText) : Json :=
  Json.obj
    ((match t.serving_size with
      | some ss => [("serving_size", Json.str ss)]
      | none => []) ++
     (if t.per_serving ≠ [] then
        [("per_serving", Json.obj (t.per_serving.map (fun kv => (kv.1, Json.str kv.2))))]
      else []) ++
     (if t.per_100g ≠ [] then
        [("per_100g", Json.obj (t.per_100g.map (fun kv => (kv.1, Json.str kv.2))))]
      else []))

/-- `json.dumps(nd, ensure_ascii=False) if nd else ""` on the nutrition
field of a detail record (line 837). -/
def nutritionJsonOf : Option NutritionResult → String
  | none => ""
  | some (NutritionResult.table t) => jsonDumps (nutritionTextToJson t)
  | some (NutritionResult.raw j) => jsonDumps j

/-- One output row, in the column order of `CSV_HEADER` (lines 841-847).
`price_was` is `none` when the Python value is `None`. -/
structure OutputRow where
  productcode : String
  category : String
  item_name : String
  best_price : String
  best_unit_price : String
  item_price : String
  unit_price : String
  price_was : Option String
  special_text : String
  promo_text : String
  link : String
  ingredients : String
  nutrition_json : String
deriving DecidableEq, Repr

/-- Embeds the per-tile body of the main loop (source lines 816-847): strip
the tile fields as `get_tile_texts` does, skip the tile unless
`name and itemprice and productLink and productcode` are all non-empty,
normalise the price, give the struck-out was-price precedence over the
promo-derived one, fetch details (an exception there, modelled by
`details link = none`, is swallowed leaving the enrichment fields empty),
and emit the row.  `details` abstracts what `fetch_details_for_link`
returns for a link during this run. -/
def process_tile (fetchIng fetchNut : Bool)
    (details : String → Option DetailRecord) (cat_name : String)
    (raw : TileData) : Option OutputRow :=
  let data := stripTileData raw
  let name := data.name
  let itemprice := data.price
  let unitprice := data.unitprice
  let specialtext := data.special
  let promotext := data.promo
  let price_was_struckout := data.was
  let productLink := data.link
  let productcode := data.code
  if ¬ (name ≠ "" ∧ itemprice ≠ "" ∧ productLink ≠ "" ∧ productcode ≠ "") then none
  else
    let r := normalize_best_price itemprice unitprice promotext
    let price_was : Option String :=
      if strip price_was_struckout ≠ "" then some (strip price_was_struckout) else r.2.2
    let enrich : String × String :=
      if fetchIng || fetchNut then
        match details productLink with
        | none => ("", "")
        | some det =>
          ((if fetchIng then det.ingredients else ""),
           (if fetchNut then nutritionJsonOf det.nutrition else ""))
      else ("", "")
    some ⟨productcode, cat_name, name, r.1, r.2.1, itemprice, unitprice,
      price_was, specialtext, promotext, productLink, enrich.1, enrich.2⟩

/-- The rows the main loop writes for one page of tiles. -/
def rows_for_page (fetchIng fetchNut : Bool)
    (details : String → Option DetailRecord) (cat_name : String)
    (tiles : List TileData) : List OutputRow :=
  tiles.filterMap (process_tile fetchIng fetchNut details cat_name)

/-! ## Helper lemmas -/

/-- Length of a string is the length of its character list. -/
theorem string_length_data (s : String) : s.length = s.data.length := rfl

/-- The two halves of `splitext` concatenate back to the input, so their
lengths sum to the input length. -/
theorem splitext_length (p : String) :
    (splitext p).1.length + (splitext p).2.length = p.length := by
  unfold splitext
  dsimp only
  split
  · split
    · simp only [string_length_data, List.length_take, List.length_drop]
      omega
    · rfl
  · rfl

/-- The fallback path is strictly longer than the base path, hence distinct
from it. -/
theorem altPath_ne (base ts : String) : altPath base ts ≠ base := by
  intro h
  have hlen := congrArg String.length h
  have hsp := splitext_length base
  unfold altPath at hlen
  dsimp only at hlen
  by_cases he : (splitext base).2 = ""
  · rw [if_pos he] at hlen
    rw [he] at hsp
    simp only [String.length_append] at hlen
    have h4 : (".csv" : String).length = 4 := rfl
    have h1 : ("_" : String).length = 1 := rfl
    have h0 : ("" : String).length = 0 := rfl
    rw [h4, h1] at hlen
    rw [h0] at hsp
    omega
  · rw [if_neg he] at hlen
    simp only [String.length_append] at hlen
    have h1 : ("_" : String).length = 1 := rfl
    rw [h1] at hlen
    omega

/-- The resume-filter fold never collects anything while the checkpoint
category has not been seen. -/
theorem filterFold_nomatch (rcat : String) :
    ∀ (cats : List Category) (keep : List Category),
      (∀ c ∈ cats, c.name ≠ rcat) →
      cats.foldl (filterStep rcat) (keep, false) = (keep, false) := by
  intro cats
  induction cats with
  | nil => intro keep _; rfl
  | cons c rest ih =>
    intro keep h
    have hc : c.name ≠ rcat := h c (List.mem_cons_self c rest)
    have hrest : ∀ x ∈ rest, x.name ≠ rcat := fun x hx => h x (List.mem_cons_of_mem c hx)
    have hstep : filterStep rcat (keep, false) c = (keep, false) := by
      simp [filterStep, hc]
    rw [List.foldl_cons, hstep]
    exact ih keep hrest

/-- If every attempt of the retry loop hits a `PermissionError`, the loop
reaches the alternate-file branch. -/
theorem open_csv_loop_allfail (env : WriterEnv) (base : String) (header : List String) :
    ∀ (remaining attempt : Nat),
      (∀ k, k < remaining → env.openBase (attempt + k) = none) →
      open_csv_loop env base header remaining attempt =
        (if env.openAlt then Except.ok ⟨altPath base env.ts, [header]⟩
         else Except.error ()) := by
  intro remaining
  induction remaining with
  | zero => intro attempt _; rfl
  | succ r ih =>
    intro attempt h
    have h0 : env.openBase attempt = none := by
      have := h 0 (Nat.succ_pos r)
      simpa using this
    simp only [open_csv_loop, h0]
    refine ih (attempt + 1) (fun k hk => ?_)
    have h2 := h (k + 1) (Nat.succ_lt_succ hk)
    have heq : attempt + 1 + k = attempt + (k + 1) := by omega
    rw [heq]
    exact h2

/-- Dropping while a predicate holds is idempotent. -/
theorem dropWhile_idem (p : Char → Bool) (l : List Char) :
    (l.dropWhile p).dropWhile p = l.dropWhile p := by
  induction l with
  | nil => rfl
  | cons c t ih =>
    by_cases h : p c
    · simp [List.dropWhile_cons, h, ih]
    · simp [List.dropWhile_cons, h]

/-- A prefix of a list whose head survives `dropWhile` also has a surviving
head. -/
theorem dropWhile_eq_self_of_prefix (p : Char → Bool) (m r : List Char)
    (hm : m.dropWhile p = m) (hr : r <+: m) : r.dropWhile p = r := by
  cases r with
  | nil => rfl
  | cons c t =>
    obtain ⟨s, hs⟩ := hr
    rw [← hs] at hm
    by_cases hpc : p c
    · exfalso
      rw [List.cons_append, List.dropWhile_cons, if_pos hpc] at hm
      have hlen := congrArg List.length hm
      have hle := (List.IsSuffix.sublist (List.dropWhile_suffix (l := t ++ s) p)).length_le
      simp at hlen hle
      omega
    · simp [List.dropWhile_cons, hpc]

/-- Stripping whitespace is idempotent on character lists. -/
theorem stripL_idem (l : List Char) : stripL (stripL l) = stripL l := by
  have hrpre : stripL l <+: l.dropWhile isWs := by
    have h2 := List.reverse_prefix.mpr
      (List.dropWhile_suffix (l := (l.dropWhile isWs).reverse) isWs)
    simpa [stripL] using h2
  have hnohead : (stripL l).dropWhile isWs = stripL l :=
    dropWhile_eq_self_of_prefix isWs (l.dropWhile isWs) (stripL l)
      (dropWhile_idem isWs l) hrpre
  have hrevnohead : (stripL l).reverse.dropWhile isWs = (stripL l).reverse := by
    show ((((l.dropWhile isWs).reverse.dropWhile isWs).reverse).reverse).dropWhile isWs =
      (((l.dropWhile isWs).reverse.dropWhile isWs).reverse).reverse
    rw [List.reverse_reverse]
    exact dropWhile_idem isWs (l.dropWhile isWs).reverse
  show (((stripL l).dropWhile isWs).reverse.dropWhile isWs).reverse = stripL l
  rw [hnohead, hrevnohead, List.reverse_reverse]

/-- Python `.strip()` is idempotent. -/
theorem strip_strip (s : String) : strip (strip s) = strip s := by
  show (⟨stripL (stripL s.data)⟩ : String) = ⟨stripL s.data⟩
  rw [stripL_idem]

/-! ## Claim C1 — member-price normalisation -/

/-- Counterexample to claim C1: on the promo text
`"Member Price $10 for 4 - $2.50 ea"` the code parses the quantity from the
segment before `" for "` (`"$10"`, whose digits give `10`) and the total
from the segment after it (`"4"`), so `best_price` is
`f"${round(4/10, 2)}" = "$0.4"` — not the claimed `"$2.5"`
(`round(10/4, 2)` per item).  The unit-price part of the claim does hold. -/
theorem c1_member_price_counterexample :
    normalize_best_price "$12.00" "$3.00/ea" "Member Price $10 for 4 - $2.50 ea"
        = ("$0.4", "$2.50 ea", none) ∧
    (normalize_best_price "$12.00" "$3.00/ea" "Member Price $10 for 4 - $2.50 ea").1
        ≠ "$2.5" := by
  constructor
  · decide
  · decide

/-- Claim C1 (amended): `normalize_best_price("$12.00", "$3.00/ea",
"Member Price $10 for 4 - $2.50 ea")` returns `best_price = "$0.4"` (the
quantity is parsed from the digits before `" for "` and the total from the
amount after it, here `round(4/10, 2)`) together with
`best_unit_price = "$2.50 ea"`; in general, whenever the member-price branch
fires and parses a quantity `qty` and a total `total`, both positive,
`best_price` is `round(total/qty, 2)` formatted as currency (rounding
modelled half-even on the exact rational). -/
theorem c1_member_price_normalisation :
    (normalize_best_price "$12.00" "$3.00/ea" "Member Price $10 for 4 - $2.50 ea"
        = ("$0.4", "$2.50 ea", none)) ∧
    (∀ (itemprice unitprice promo : String) (qty : Nat) (total : ℚ)
        (useg : Option String),
      memberMarker promo = true →
      memberGuard (memberP2 promo) = true →
      memberParse (memberP2 promo) = some (qty, total, useg) →
      0 < qty → 0 < total →
      (normalize_best_price itemprice unitprice promo).1 =
        "$" ++ fmtRound2 (ratDivNat total qty)) := by
  constructor
  · decide
  · intro itemprice unitprice promo qty total useg hm hg hp hq ht
    have hne : promo ≠ "" := by
      intro he
      rw [he] at hm
      exact absurd hm (by decide)
    simp [normalize_best_price, hne, hm, hg, memberPair, hp, hq, ht]

/-- Witness for C1 (amended): on the well-formed promo `"2 for $5"` the
member branch fires with quantity `2` and total `5`, and the best price is
the currency formatting of `round(5/2, 2)`. -/
theorem c1_member_price_normalisation_witness :
    (normalize_best_price "$5.00" "$1.00/ea" "2 for $5").1 =
      "$" ++ fmtRound2 (ratDivNat 5 2) :=
  c1_member_price_normalisation.2 "$5.00" "$1.00/ea" "2 for $5" 2 5 none
    (by decide) (by decide) (by decide) (by decide) (by decide)

/-! ## Claim C2 — resume filtering on a missing checkpoint category -/

/-- Counterexample to claim C2: with the checkpoint active and its category
name matching no discovered category, `filter_for_resume` returns the empty
list, not the full list `[A, B, C]` the claim promises — the code fails
closed, not open. -/
theorem c2_resume_fail_open_counterexample :
    filter_for_resume true "Z"
        [⟨"A", "/shop/browse/a", "a"⟩, ⟨"B", "/shop/browse/b", "b"⟩,
         ⟨"C", "/shop/browse/c", "c"⟩] = [] ∧
    ([] : List Category) ≠
        [⟨"A", "/shop/browse/a", "a"⟩, ⟨"B", "/shop/browse/b", "b"⟩,
         ⟨"C", "/shop/browse/c", "c"⟩] := by
  constructor
  · decide
  · decide

/-- Claim C2 (amended): for every category list and every active checkpoint
whose category name equals no name in the list, `filter_for_resume` returns
the empty list (fail closed) — never the full list, unless that list is
itself empty. -/
theorem c2_resume_no_match_empty (rcat : String) (cats : List Category)
    (h : ∀ c ∈ cats, c.name ≠ rcat) :
    filter_for_resume true rcat cats = [] := by
  simp only [filter_for_resume]
  rw [if_neg (by simp)]
  rw [filterFold_nomatch rcat cats [] h]

/-- Witness for C2 (amended): a concrete active checkpoint category absent
from a concrete category list yields the empty crawl set. -/
theorem c2_resume_no_match_empty_witness :
    filter_for_resume true "Z"
        [⟨"A", "/shop/browse/a", "a"⟩, ⟨"C", "/shop/browse/c", "c"⟩] = [] := by
  exact c2_resume_no_match_empty "Z"
    [⟨"A", "/shop/browse/a", "a"⟩, ⟨"C", "/shop/browse/c", "c"⟩]
    (by intro c hc; fin_cases hc <;> decide)

/-! ## Claim C3 — category discovery on a missing disclosure control -/

/-- Counterexample to claim C3: when the category-menu disclosure control is
not found within the bounded wait, `get_categories` does not return an empty
list — the `TimeoutException` raised by `wait_for` propagates out of it
uncaught. -/
theorem c3_get_categories_timeout_counterexample :
    get_categories [] none = Except.error ScrapeError.timeout ∧
    get_categories [] none ≠ Except.ok ([] : List Category) := by
  constructor
  · rfl
  · intro h
    exact Except.noConfusion h

/-- Claim C3 (amended): when the disclosure control cannot be found within
the bounded wait, `get_categories` propagates the timeout error (the claim
as stated is wrong: the run crashes instead of receiving `[]`); whenever the
control is found, the function does return an ordinary (possibly empty)
list and raises nothing. -/
theorem c3_get_categories_timeout_raises :
    (∀ ignored : List String,
      get_categories ignored none = Except.error ScrapeError.timeout) ∧
    (∀ (ignored : List String) (anchors : List Anchor),
      ∃ cats, get_categories ignored (some anchors) = Except.ok cats) :=
  ⟨fun _ => rfl, fun ignored anchors => ⟨anchors.filterMap (categoryOfAnchor ignored), rfl⟩⟩

/-! ## Claim C4 — ingredients slicing -/

/-- Counterexample to claim C4: on the text
`"Ingredients: wheat, salt\nAllergen: contains gluten"` the extraction
returns `""`, not `"wheat, salt"`: the heading regex only matches an
`Ingredients` heading standing on its own line, and the fallback path
starts slicing at the line after the one containing `ingredient` and cuts
immediately at the `Allergen` next-section keyword. -/
theorem c4_ingredients_counterexample :
    parse_ingredients_from_text "Ingredients: wheat, salt\nAllergen: contains gluten" = "" ∧
    parse_ingredients_from_text "Ingredients: wheat, salt\nAllergen: contains gluten"
      ≠ "wheat, salt" := by
  constructor
  · decide
  · decide

/-- Claim C4 (amended): for the page text
`"Ingredients: wheat, salt\nAllergen: contains gluten"` (ingredients on the
same line as the heading) the extraction returns the empty string; the
claimed result `"wheat, salt"` is produced only when the heading stands on
its own line, as in `"Ingredients:\nwheat, salt\nAllergen: contains gluten"`. -/
theorem c4_ingredients_slicing :
    parse_ingredients_from_text "Ingredients: wheat, salt\nAllergen: contains gluten" = "" ∧
    parse_ingredients_from_text "Ingredients:\nwheat, salt\nAllergen: contains gluten"
      = "wheat, salt" := by
  constructor
  · decide
  · decide

/-! ## Claim C10 — detail fetch with an empty link -/

/-- Claim C10: calling `fetch_details_for_link` with an empty link returns
the record with empty ingredients and empty nutrition immediately: no
browsing context is opened, nothing is navigated to, and the per-run cache
is returned unchanged. -/
theorem c10_fetch_details_empty_link (fetchIng fetchNut : Bool)
    (cache : List (String × DetailRecord)) (env : String → DetailEnv) :
    fetch_details_for_link fetchIng fetchNut cache env "" =
      (⟨"", none⟩, cache, ⟨false, []⟩) := rfl

/-! ## Claim C5 — promo texts without any marker leave the prices unchanged -/

/-- Claim C5: for every item price, unit price and promo text containing
neither of the was-markers (`"Range was "`, `"Was "`) nor either
member-price trigger (`"Member Price"`, `" for "`) — which includes the
empty promo text — `normalize_best_price` returns both prices unchanged
with `price_was = none`. -/
theorem c5_no_marker_unchanged (itemprice unitprice promo : String)
    (h1 : containsSub promo "Range was " = false)
    (h2 : containsSub promo "Was " = false)
    (h3 : containsSub promo "Member Price" = false)
    (h4 : containsSub promo " for " = false) :
    normalize_best_price itemprice unitprice promo = (itemprice, unitprice, none) := by
  by_cases hp : promo = ""
  · simp [normalize_best_price, hp]
  · have hw : wasMarker promo = false := by simp [wasMarker, h1, h2]
    have hm : memberMarker promo = false := by simp [memberMarker, h3, h4]
    simp [normalize_best_price, hp, hw, hm]

/-- Witness for C5: a concrete promo text with no marker passes both prices
through unchanged. -/
theorem c5_no_marker_unchanged_witness :
    normalize_best_price "$12.00" "$3.00/ea" "Save $2" = ("$12.00", "$3.00/ea", none) :=
  c5_no_marker_unchanged "$12.00" "$3.00/ea" "Save $2"
    (by decide) (by decide) (by decide) (by decide)

/-! ## Claim C6 — totality and graceful degradation of the normaliser -/

/-- Claim C6: `normalize_best_price` is a total function of its three string
inputs (it is a Lean `def`, defined on every triple), and parsing failures
degrade gracefully: when the member-price `float` parse fails
(`memberParse = none`, Python's caught `ValueError`), both prices come back
unchanged, and when the was-price extraction raises (`wasExtract = none`,
Python's caught `IndexError`), `price_was` comes back `none`. -/
theorem c6_never_throws_degrades (itemprice unitprice promo : String) :
    (memberParse (memberP2 promo) = none →
      (normalize_best_price itemprice unitprice promo).1 = itemprice ∧
      (normalize_best_price itemprice unitprice promo).2.1 = unitprice) ∧
    (wasExtract promo = none →
      (normalize_best_price itemprice unitprice promo).2.2 = none) := by
  constructor
  · intro hmp
    by_cases hp : promo = ""
    · simp [normalize_best_price, hp]
    · by_cases hm : memberMarker promo = true
      · by_cases hg : memberGuard (memberP2 promo) = true
        · simp [normalize_best_price, hp, hm, hg, memberPair, hmp]
        · simp [normalize_best_price, hp, hm, hg]
      · simp [normalize_best_price, hp, hm]
  · intro hwe
    by_cases hp : promo = ""
    · simp [normalize_best_price, hp]
    · by_cases hw : wasMarker promo = true
      · simp [normalize_best_price, hp, hw, hwe]
      · simp [normalize_best_price, hp, hw]

/-- Witness for C6: a promo whose member-price total is not a number
(`"2 for $x"`) leaves both prices unchanged, and a promo that triggers the
was-marker with no extractable token (`"Was "`) leaves `price_was = none`. -/
theorem c6_never_throws_degrades_witness :
    ((normalize_best_price "$1" "$2" "2 for $x").1 = "$1" ∧
     (normalize_best_price "$1" "$2" "2 for $x").2.1 = "$2") ∧
    (normalize_best_price "$1" "$2" "Was ").2.2 = none :=
  ⟨(c6_never_throws_degrades "$1" "$2" "2 for $x").1 (by decide),
   (c6_never_throws_degrades "$1" "$2" "Was ").2 (by decide)⟩

/-! ## Claim C7 — required-field gating of output rows -/

/-- Claim C7: a tile any of whose `name`, `item_price`, `link`, `code`
fields is blank after trimming produces no output row, however complete its
other fields are; conversely every emitted row comes from a tile whose four
required fields are all non-blank. -/
theorem c7_required_fields_gate (fetchIng fetchNut : Bool)
    (details : String → Option DetailRecord) (cat_name : String) (raw : TileData) :
    ((strip raw.name = "" ∨ strip raw.price = "" ∨ strip raw.link = "" ∨
        strip raw.code = "") →
      process_tile fetchIng fetchNut details cat_name raw = none) ∧
    (∀ row, process_tile fetchIng fetchNut details cat_name raw = some row →
      strip raw.name ≠ "" ∧ strip raw.price ≠ "" ∧ strip raw.link ≠ "" ∧
        strip raw.code ≠ "") := by
  constructor
  · intro hblank
    have hgate : ¬ (strip raw.name ≠ "" ∧ strip raw.price ≠ "" ∧
        strip raw.link ≠ "" ∧ strip raw.code ≠ "") := by tauto
    simp only [process_tile, stripTileData]
    rw [if_pos hgate]
  · intro row h
    by_cases hgate : (strip raw.name ≠ "" ∧ strip raw.price ≠ "" ∧
        strip raw.link ≠ "" ∧ strip raw.code ≠ "")
    · exact hgate
    · simp only [process_tile, stripTileData] at h
      rw [if_pos hgate] at h
      exact Option.noConfusion h

/-- Witness for C7: a tile with a blank link is dropped, and a concrete
fully-required tile is emitted with its required fields non-blank. -/
theorem c7_required_fields_gate_witness :
    process_tile true true (fun _ => none) "Dairy"
        ⟨" Milk ", "$2", "", "", "", "", "  ", "123"⟩ = none ∧
    (strip " Milk " ≠ "" ∧ strip "$2" ≠ "" ∧ strip "http://x" ≠ "" ∧
      strip "123" ≠ "") :=
  ⟨(c7_required_fields_gate true true (fun _ => none) "Dairy"
      ⟨" Milk ", "$2", "", "", "", "", "  ", "123"⟩).1 (by decide),
   (c7_required_fields_gate true true (fun _ => none) "Dairy"
      ⟨" Milk ", "$2", "", "", "", "", "http://x", "123"⟩).2
      ⟨"123", "Dairy", "Milk", "$2", "", "$2", "", none, "", "", "http://x", "", ""⟩
      (by decide)⟩

/-! ## Claim C9 — struck-out was-price takes precedence -/

/-- Claim C9: in every emitted row the `Price Was` field is the tile's
trimmed struck-out price whenever that is non-blank, and only when it is
blank does the promo-derived `price_was` of `normalize_best_price` flow
into the row. -/
theorem c9_price_was_precedence (fetchIng fetchNut : Bool)
    (details : String → Option DetailRecord) (cat_name : String)
    (raw : TileData) (row : OutputRow)
    (h : process_tile fetchIng fetchNut details cat_name raw = some row) :
    (strip raw.was ≠ "" → row.price_was = some (strip raw.was)) ∧
    (strip raw.was = "" →
      row.price_was =
        (normalize_best_price (strip raw.price) (strip raw.unitprice)
          (strip raw.promo)).2.2) := by
  by_cases hgate : (strip raw.name ≠ "" ∧ strip raw.price ≠ "" ∧
      strip raw.link ≠ "" ∧ strip raw.code ≠ "")
  · simp only [process_tile, stripTileData] at h
    rw [if_neg (by tauto)] at h
    have hrow := Option.some.inj h
    subst hrow
    constructor
    · intro hw
      show (if strip (strip raw.was) ≠ "" then some (strip (strip raw.was))
        else (normalize_best_price (strip raw.price) (strip raw.unitprice)
          (strip raw.promo)).2.2) = some (strip raw.was)
      rw [strip_strip, if_pos hw]
    · intro hw
      show (if strip (strip raw.was) ≠ "" then some (strip (strip raw.was))
        else (normalize_best_price (strip raw.price) (strip raw.unitprice)
          (strip raw.promo)).2.2) =
        (normalize_best_price (strip raw.price) (strip raw.unitprice)
          (strip raw.promo)).2.2
      rw [strip_strip, if_neg (fun hne => hne hw)]
  · simp only [process_tile, stripTileData] at h
    rw [if_pos hgate] at h
    exact Option.noConfusion h

/-! ## Claim C8 — writer fallback to a timestamped alternate file -/

/-- Claim C8: when opening the primary output file hits a lock/permission
error on every attempt of the bounded retry window and the alternate open
succeeds, `open_csv_writer_with_retry` creates the timestamp-suffixed
alternate file, writes the header row to it exactly once, and returns a
writer bound to the alternate path (distinct from the primary), so every
subsequent row of the run lands only in the alternate file; the call
returns normally instead of propagating the failure. -/
theorem c8_writer_fallback (env : WriterEnv) (base : String)
    (header : List String) (max_retries : Nat)
    (hfail : ∀ a, a < max_retries → env.openBase a = none)
    (halt : env.openAlt = true) :
    ∃ w, open_csv_writer_with_retry env base header max_retries = Except.ok w ∧
      w.path = altPath base env.ts ∧ w.path ≠ base ∧ w.rows = [header] ∧
      ∀ extra, writesTo w extra base = [] ∧
        writesTo w extra w.path = header :: extra := by
  have hloop := open_csv_loop_allfail env base header max_retries 0
    (fun k hk => by simpa using hfail k hk)
  refine ⟨⟨altPath base env.ts, [header]⟩, ?_, rfl, altPath_ne base env.ts, rfl, ?_⟩
  · unfold open_csv_writer_with_retry
    rw [hloop, if_pos halt]
  · intro extra
    constructor
    · simp only [writesTo]
      rw [if_neg (fun h => altPath_ne base env.ts h.symm)]
    · simp [writesTo]

/-- Witness for C8: a concrete environment whose eight primary open attempts
all fail with a permission error sends the writer to the timestamped
alternate file with exactly one header row. -/
theorem c8_writer_fallback_witness :
    ∃ w, open_csv_writer_with_retry ⟨fun _ => none, true, "20250101-120000"⟩
        "Woolworths.csv" CSV_HEADER 8 = Except.ok w ∧
      w.path = altPath "Woolworths.csv" "20250101-120000" ∧
      w.path ≠ "Woolworths.csv" ∧ w.rows = [CSV_HEADER] ∧
      ∀ extra, writesTo w extra "Woolworths.csv" = [] ∧
        writesTo w extra w.path = CSV_HEADER :: extra :=
  c8_writer_fallback ⟨fun _ => none, true, "20250101-120000"⟩ "Woolworths.csv"
    CSV_HEADER 8 (fun _ _ => rfl) rfl

/-- Witness for C9: a tile with a non-blank struck-out price puts that price
(trimmed) into the row, and a tile with a blank struck-out price falls back
to the promo-derived was-price. -/
theorem c9_price_was_precedence_witness :
    (⟨"C", "D", "A", "$1", "$2/ea", "$1", "$2/ea", some "$5.00", "sp",
        "Was $4 - x", "L", "", ""⟩ : OutputRow).price_was = some (strip " $5.00 ") ∧
    (⟨"C", "D", "A", "$1", "$2/ea", "$1", "$2/ea", some "$4", "sp",
        "Was $4 - x", "L", "", ""⟩ : OutputRow).price_was =
      (normalize_best_price (strip "$1") (strip "$2/ea") (strip "Was $4 - x")).2.2 :=
  ⟨(c9_price_was_precedence false false (fun _ => none) "D"
      ⟨"A", "$1", "$2/ea", "sp", "Was $4 - x", " $5.00 ", "L", "C"⟩
      ⟨"C", "D", "A", "$1", "$2/ea", "$1", "$2/ea", some "$5.00", "sp",
        "Was $4 - x", "L", "", ""⟩ (by decide)).1 (by decide),
   (c9_price_was_precedence false false (fun _ => none) "D"
      ⟨"A", "$1", "$2/ea", "sp", "Was $4 - x", "  ", "L", "C"⟩
      ⟨"C", "D", "A", "$1", "$2/ea", "$1", "$2/ea", some "$4", "sp",
        "Was $4 - x", "L", "", ""⟩ (by decide)).2 (by decide)⟩

end Scraper
